import Mathlib

/-!
Verification development for the RESONANCE-NETWORK repository
(quantum-graph scoring substrate with a 9-field interpretation layer).

The Python sources are shallowly embedded over `ℚ`:

* Machine floats are modelled as exact rationals.  The float primitives
  whose results are irrational (`sqrt` inside `torch.std` / `LayerNorm`,
  `exp` inside `sigmoid` / `softmax`) and the string formatting used in
  narrative seeds are abstracted into a record `FloatOps` of arbitrary
  *functions*: each of these primitives is a deterministic function in the
  source runtime, and every theorem below holds for an arbitrary choice of
  `FloatOps`, hence in particular for the real float implementations.
* Randomness (`torch.randn` in `create_intention_perturbation`, the
  dropout mask of `SunFiLM`) is made explicit: the random draws are
  additional arguments of the embedded functions, consulted exactly where
  the source consults its random number generator.
* The mutable state of `VirtualConsciousnessEngine` and
  `AdjustableConsciousness` is embedded by explicit state passing:
  each method of the source becomes a function `State → ... → State × Result`.
* Python dicts become association lists (insertion ordered, distinct keys),
  Python sets of gate numbers become `Finset ℕ` where the source uses them
  as sets, and explicit enumeration lists where the source iterates them
  (`list(self.gates)` in `collapse_to_state`); the enumeration lists record
  CPython's set iteration order: small non-negative ints hash to themselves
  and land in slot `hash mod table_size` of the open-addressed hash table,
  and iteration walks the slots in order.
-/

namespace RN

/-! ## Static data from core.py -/

/-- Embeds `Stream` (core.py): the two placement streams. -/
inductive Stream where
  | body
  | design
deriving DecidableEq, Repr

/-- Embeds `ChartSystem` (core.py). -/
inductive ChartSystem where
  | sidereal
  | tropical
  | draconic
deriving DecidableEq, Repr

/-- Embeds the `Placement` dataclass (core.py): a planetary activation
with planet name, stream, gate (1..64), line (1..6) and optional degree.
`timestamp` is omitted: no embedded function reads it. -/
structure Placement where
  planet : String
  stream : Stream
  gate : ℕ
  line : ℕ
  degree : Option ℚ := none
  chart_system : ChartSystem := ChartSystem.sidereal
deriving DecidableEq, Repr

/-- Embeds the `CHANNELS` constant (core.py): the hardcoded list of
`(gate1, gate2, channel_name)` triples, in source order. -/
def CHANNELS : List (ℕ × ℕ × String) :=
  [ (64, 47, "Abstract/Reason"),
    (61, 24, "Awareness/The Thinker"),
    (63, 4, "Logic/Formulas"),
    (47, 64, "Abstract/Reason"),
    (24, 61, "Awareness/The Thinker"),
    (4, 63, "Logic/Formulas"),
    (17, 62, "Acceptance/Organization"),
    (43, 23, "Insight/Structuring"),
    (11, 56, "Curiosity/Stimulation"),
    (31, 7, "Alpha/The Sphinx"),
    (8, 1, "Inspiration/The Creative"),
    (33, 13, "Prodigal/The Witness"),
    (20, 10, "Awakening/Commitment"),
    (16, 48, "Wavelength/The Talent"),
    (62, 17, "Acceptance/Organization"),
    (23, 43, "Insight/Structuring"),
    (56, 11, "Curiosity/Stimulation"),
    (7, 31, "Alpha/The Sphinx"),
    (1, 8, "Inspiration/The Creative"),
    (13, 33, "Prodigal/The Witness"),
    (10, 20, "Awakening/Commitment"),
    (25, 51, "Initiation/The Shaman"),
    (46, 29, "Discovery/Succeeding"),
    (2, 14, "The Beat/Keeper of Keys"),
    (15, 5, "Rhythm/Flow"),
    (10, 34, "Exploration/Power"),
    (25, 51, "Initiation"),
    (7, 31, "Alpha"),
    (1, 8, "Inspiration"),
    (13, 33, "Prodigal"),
    (10, 20, "Awakening"),
    (25, 51, "Initiation"),
    (46, 29, "Discovery"),
    (10, 34, "Exploration"),
    (5, 15, "Rhythm/Flow"),
    (14, 2, "The Beat/Keeper"),
    (29, 46, "Discovery/Succeeding"),
    (34, 10, "Exploration/Power"),
    (27, 50, "Preservation/Cauldron"),
    (59, 6, "Intimacy/Mating"),
    (9, 52, "Concentration/Focus"),
    (3, 60, "Mutation/Energy"),
    (42, 53, "Maturation/Cycles"),
    (48, 16, "Wavelength/The Talent"),
    (57, 10, "Intuitive Insight/Perfected Form"),
    (44, 26, "Surrender/Transmitter"),
    (50, 27, "Preservation/Cauldron"),
    (32, 54, "Transformation/Ambition"),
    (28, 38, "The Game Player/Struggle"),
    (18, 58, "Correction/Judgment"),
    (41, 30, "Recognition/Format"),
    (39, 55, "Emoting/Spirit"),
    (22, 12, "Openness/Grace"),
    (37, 40, "Bargain/Community"),
    (36, 35, "Transitoriness/Crisis"),
    (6, 59, "Intimacy/Mating"),
    (21, 45, "Money/The Gatherer"),
    (26, 44, "Surrender/Transmitter"),
    (40, 37, "Bargain/Community"),
    (51, 25, "Initiation/Shaman"),
    (21, 45, "Money"),
    (26, 44, "Surrender"),
    (51, 25, "Initiation") ]

/-- One step of the loop body of `get_channel_edges` (core.py):
carries the `(edges, seen)` pair; the Python `seen` set is modelled as a
list used only for membership tests. -/
def channelEdgeStep (acc : List (ℕ × ℕ) × List (ℕ × ℕ)) (c : ℕ × ℕ × String) :
    List (ℕ × ℕ) × List (ℕ × ℕ) :=
  let g1 := c.1
  let g2 := c.2.1
  if ¬ acc.2.contains (g1, g2) ∧ ¬ acc.2.contains (g2, g1) then
    (acc.1 ++ [(g1, g2), (g2, g1)], acc.2 ++ [(g1, g2)])
  else
    acc

/-- Embeds `get_channel_edges` (core.py): expands `CHANNELS` into a
directed edge list, adding both directions of each unordered pair the
first time the pair is seen. -/
def get_channel_edges : List (ℕ × ℕ) :=
  (CHANNELS.foldl channelEdgeStep ([], [])).1

/-- Embeds the `CENTERS` table (core.py) as an association list from
center name to the gate set, in source order; the sets are kept as
literal insertion lists. -/
def CENTERS : List (String × List ℕ) :=
  [ ("Head", [64, 61, 63]),
    ("Ajna", [47, 24, 4, 17, 11, 43]),
    ("Throat", [62, 23, 56, 35, 12, 45, 33, 8, 31, 20, 16]),
    ("G", [7, 1, 13, 10, 15, 2, 46, 25]),
    ("Ego", [21, 51, 26, 40]),
    ("Spleen", [57, 44, 50, 32, 28, 18, 48]),
    ("Solar", [55, 49, 37, 22, 30, 36, 6]),
    ("Sacral", [5, 14, 29, 59, 9, 3, 42, 27, 34]),
    ("Root", [52, 19, 39, 41, 38, 54, 53, 60, 58]) ]

/-- Embeds `AWARENESS_SYSTEMS` (core.py): the three awareness-system
gate sets, in source order. -/
def AWARENESS_SYSTEMS : List (String × List ℕ) :=
  [ ("spleen", [57, 44, 50, 32, 28, 18]),
    ("ajna", [47, 24, 4, 17, 11, 43]),
    ("solar", [55, 49, 37, 22, 30, 36, 6]) ]

/-- The 9 consciousness-field names in the insertion order of the
`CONSCIOUSNESS_FIELDS` dict (core.py); `NineBodyConsciousness` iterates
the fields in this order. -/
def FIELD_NAMES : List String :=
  ["Mind", "Heart", "Body", "Soul", "Spirit", "Shadow", "Higher", "Lower", "Core"]

/-- The `awareness` entry of each field's `CONSCIOUSNESS_FIELDS` config
(core.py): the optional awareness-system name used by
`collapse_to_state`. -/
def fieldAwareness (name : String) : Option String :=
  if name = "Mind" then some "ajna"
  else if name = "Heart" then some "solar"
  else if name = "Body" then some "spleen"
  else if name = "Soul" then none
  else if name = "Spirit" then none
  else if name = "Shadow" then some "spleen"
  else if name = "Higher" then some "ajna"
  else if name = "Lower" then some "spleen"
  else if name = "Core" then none
  else none

/-- Embeds the value of `get_field_gates(field_name)` (core.py) *as the
Python runtime enumerates it*: `get_field_gates` returns a CPython `set`
built by `set.update` from the `CENTERS` literals, and
`ConsciousnessField` iterates it (`[g - 1 for g in self.gates]`,
`list(self.gates)`).  Small non-negative ints hash to themselves, so the
enumeration order is the slot order of the open-addressed table (slot =
value mod table size, tables resized as the set grows); the lists below
are exactly that order for each field's construction sequence. -/
def fieldGatesEnum (name : String) : List ℕ :=
  if name = "Mind" then [64, 4, 11, 43, 47, 17, 24, 61, 63]
  else if name = "Heart" then [36, 37, 6, 40, 49, 51, 21, 22, 55, 26, 30]
  else if name = "Body" then
    [3, 5, 9, 14, 18, 19, 27, 28, 29, 32, 34, 38, 39, 41, 42, 44, 48, 50,
     52, 53, 54, 57, 58, 59, 60]
  else if name = "Soul" then [1, 2, 7, 10, 13, 46, 15, 25]
  else if name = "Spirit" then [33, 35, 8, 12, 45, 16, 20, 23, 56, 62, 31]
  else if name = "Shadow" then [38, 39, 41, 19, 52, 53, 54, 58, 60]
  else if name = "Higher" then [64, 61, 63]
  else if name = "Lower" then
    [34, 3, 5, 38, 39, 9, 42, 59, 41, 14, 19, 52, 53, 54, 58, 27, 60, 29]
  else if name = "Core" then [1, 2, 7, 40, 10, 13, 46, 15, 51, 21, 25, 26]
  else []

/-! ## Abstracted float primitives -/

/-- The deterministic float primitives the source relies on and whose
exact values are not rational-representable: `sqrtf` stands for the
square root used by `torch.std` (via `_compute_coherence`) and by
`LayerNorm`; `expf` stands for `exp` inside `sigmoid` and `softmax`;
`fmtPct` stands for Python's percentage string formatting of a float
(the narrative-seed templates).  All theorems hold for an arbitrary
choice of these functions. -/
structure FloatOps where
  sqrtf : ℚ → ℚ
  expf : ℚ → ℚ
  fmtPct : ℚ → String

/-! ## Vector and matrix helpers (torch tensor operations over `ℚ`) -/

/-- Dot product of two rational vectors (`torch` inner product). -/
def dotQ (xs ys : List ℚ) : ℚ :=
  (List.zipWith (· * ·) xs ys).sum

/-- Matrix–vector product: a `torch.nn.Linear` weight applied to a vector
(rows of `M` are the output neurons). -/
def matVec (M : List (List ℚ)) (v : List ℚ) : List ℚ :=
  M.map (fun row => dotQ row v)

/-- A `torch.nn.Linear` layer with bias: `W v + b`. -/
def linearQ (W : List (List ℚ)) (b : List ℚ) (v : List ℚ) : List ℚ :=
  List.zipWith (· + ·) (matVec W v) b

/-- Elementwise vector addition. -/
def vaddQ (xs ys : List ℚ) : List ℚ :=
  List.zipWith (· + ·) xs ys

/-- Scalar multiple of a vector. -/
def smulQ (c : ℚ) (xs : List ℚ) : List ℚ :=
  xs.map (fun x => c * x)

/-- `torch.relu`: elementwise `max 0`. -/
def reluQ (xs : List ℚ) : List ℚ :=
  xs.map (fun x => max 0 x)

/-- Sum of a list of vectors, starting from an explicit zero vector. -/
def vsumQ (zero : List ℚ) (vs : List (List ℚ)) : List ℚ :=
  vs.foldl vaddQ zero

/-- `torch.sigmoid` with the abstracted `exp` primitive:
`1 / (1 + exp (-x))`. -/
def sigmoidQ (ops : FloatOps) (x : ℚ) : ℚ :=
  1 / (1 + ops.expf (-x))

/-! ## Field encoder (features.py) -/

/-- Embeds `QuantumFieldEncoder.PLANETS` (features.py): the known entity
names, in source order. -/
def PLANETS : List String :=
  ["Sun", "Earth", "Moon", "Mercury", "Venus", "Mars",
   "Jupiter", "Saturn", "Uranus", "Neptune", "Pluto",
   "North Node", "South Node"]

/-- Embeds the `planet_to_idx` dict (features.py): index of a planet name
in `PLANETS`, `none` for unknown names. -/
def planet_to_idx (p : String) : Option ℕ :=
  PLANETS.indexOf? p

/-- The loop body of `_encode_gate_placements` (features.py): one
placement updates the `(planet_vec, line_vec)` pair.  Note that in the
source *both* the presence flag and the line increment are guarded by
`if p.planet in self.planet_to_idx`: a placement with an unknown planet
name updates neither vector. -/
def encodeGateStep (acc : List ℚ × List ℚ) (p : Placement) : List ℚ × List ℚ :=
  match planet_to_idx p.planet with
  | some i => (acc.1.set i 1, acc.2.set (p.line - 1) ((acc.2.getD (p.line - 1) 0) + 1))
  | none => acc

/-- Embeds `QuantumFieldEncoder._encode_gate_placements` (features.py)
with the default `embedding_dim = 64`: one-hot planet presence (13) ++
normalized line histogram (6), zero-padded to `embedding_dim // 2 = 32`;
the all-zero vector for an empty placement list. -/
def encode_gate_placements (placements : List Placement) : List ℚ :=
  if placements = [] then List.replicate 32 0
  else
    let pair := placements.foldl encodeGateStep (List.replicate 13 0, List.replicate 6 0)
    let line_vec := if 0 < pair.2.sum then pair.2.map (fun x => x / pair.2.sum) else pair.2
    let gate_features := pair.1 ++ line_vec
    let padded := gate_features ++ List.replicate (32 - gate_features.length) 0
    padded.take 32

/-- Embeds `QuantumFieldEncoder.encode_placements` (features.py): one
feature row per gate 1..64, the concatenation of the body-stream and
design-stream encodings of the placements landing on that gate. -/
def encode_placements (placements : List Placement) : List (List ℚ) :=
  (List.range 64).map (fun idx =>
    let gate := idx + 1
    let body := placements.filter (fun p => p.stream = Stream.body ∧ p.gate = gate)
    let design := placements.filter (fun p => ¬ p.stream = Stream.body ∧ p.gate = gate)
    encode_gate_placements body ++ encode_gate_placements design)

/-- Embeds `QuantumFieldEncoder.encode_sun_context` (features.py):
one-hot gate (64) ++ one-hot line (6) ++ normalized degree (1) ++ zero
padding to 80.  Python's `if sun_placement.degree` is falsy both for
`None` and for `0.0`, hence the inner `0` test. -/
def encode_sun_context (p : Placement) : List ℚ :=
  let gate_vec := (List.range 64).map (fun i => if i = p.gate - 1 then (1 : ℚ) else 0)
  let line_vec := (List.range 6).map (fun i => if i = p.line - 1 then (1 : ℚ) else 0)
  let degree_val :=
    match p.degree with
    | some d => if d = 0 then (0 : ℚ) else d / 360
    | none => 0
  gate_vec ++ line_vec ++ [degree_val] ++ List.replicate 9 0

/-- Membership mask of a gate list, as built by `get_awareness_masks`
(features.py): entry `i` is true iff gate `i+1` is in the set. -/
def maskOf (gates : List ℕ) : List Bool :=
  (List.range 64).map (fun i => gates.contains (i + 1))

/-- Embeds `QuantumFieldEncoder.get_awareness_masks` (features.py): the
three awareness-system masks plus the `heart` and `mind` masks, in
dict-insertion order. -/
def get_awareness_masks : List (String × List Bool) :=
  [ ("spleen", maskOf [57, 44, 50, 32, 28, 18]),
    ("ajna", maskOf [47, 24, 4, 17, 11, 43]),
    ("solar", maskOf [55, 49, 37, 22, 30, 36, 6]),
    ("heart", maskOf [21, 51, 26, 40]),
    ("mind", maskOf [47, 24, 4, 17, 11, 43]) ]

/-- Embeds `QuantumFieldEncoder.get_edge_index` (features.py): the
channel edge list converted to 0-indexed pairs. -/
def get_edge_index : List (ℕ × ℕ) :=
  get_channel_edges.map (fun e => (e.1 - 1, e.2 - 1))

/-- Embeds `create_intention_perturbation` (features.py).  The
`torch.randn(64)` draw is the explicit argument `randn`; the result is
`randn * 0.1` plus a `0.3` boost on every gate whose encoded feature row
has positive sum. -/
def create_intention_perturbation (randn : List ℚ) (base_placements : List Placement) :
    List ℚ :=
  let base_features := encode_placements base_placements
  let activation_boost := base_features.map (fun row => if 0 < row.sum then (3 : ℚ)/10 else 0)
  vaddQ (smulQ (1/10) randn) activation_boost

/-! ## Graph scoring network (network.py)

`QuantumHDNet` with the constructor arguments used by the engine:
`input_dim = 64`, `hidden_dim = 128`, `sun_dim = 80`, `num_layers = 3`.
The learned parameters are explicit inputs (the engine loads them once;
`create_model` without a checkpoint leaves torch's random initialization,
which is likewise a fixed draw for the lifetime of the engine). -/

/-- Parameters of one `SAGEConv(hidden, hidden)` layer (PyTorch
Geometric): `lin_l` (with bias) applied to the mean-aggregated neighbor
features and `lin_r` (no bias) applied to the root feature. -/
structure SageParams where
  linLW : List (List ℚ)
  linLB : List ℚ
  linRW : List (List ℚ)
deriving Repr

/-- Parameters of one `nn.LayerNorm(hidden)`: elementwise affine weight
and bias; `eps = 1e-5`. -/
structure LayerNormParams where
  gamma : List ℚ
  beta : List ℚ
deriving Repr

/-- All learned parameters of `QuantumHDNet` (network.py), including the
`SunFiLM` MLP, the codon head, and the five pooling/readout heads. -/
structure NetParams where
  inputW : List (List ℚ)
  inputB : List ℚ
  convs : List SageParams
  norms : List LayerNormParams
  filmW1 : List (List ℚ)
  filmB1 : List ℚ
  filmW2 : List (List ℚ)
  filmB2 : List ℚ
  codonW1 : List (List ℚ)
  codonB1 : List ℚ
  codonW2 : List (List ℚ)
  codonB2 : List ℚ
  poolW : List (String × (List (List ℚ) × List ℚ))
  headW : List (String × (List (List ℚ) × List ℚ))
deriving Repr

/-- Association-list lookup with decidable string equality (a Python
dict read `d[k]`). -/
def dictGet (m : List (String × α)) (k : String) : Option α :=
  match m with
  | [] => none
  | e :: rest => if e.1 = k then some e.2 else dictGet rest k

/-- Python dict assignment `d[k] = v` on an association list: replaces
the first binding of `k`, or appends a new binding. -/
def dictInsert (m : List (String × α)) (k : String) (v : α) : List (String × α) :=
  match m with
  | [] => [(k, v)]
  | e :: rest => if e.1 = k then (k, v) :: rest else e :: dictInsert rest k v

/-- Mean aggregation of the in-neighbors of node `i` under the directed
edge list (`SAGEConv` with the default `aggr='mean'`; the mean of an
empty neighborhood is the zero vector, as in `scatter_mean`). -/
def neighborMean (edges : List (ℕ × ℕ)) (h : List (List ℚ)) (i : ℕ) : List ℚ :=
  let vecs := (edges.filter (fun e => e.2 = i)).filterMap (fun e => h[e.1]?)
  if vecs.length = 0 then List.replicate 128 0
  else smulQ (1 / vecs.length) (vsumQ (List.replicate 128 0) vecs)

/-- One `SAGEConv` layer over all 64 nodes:
`lin_l(mean of neighbors) + lin_r(root)`. -/
def sageConv (p : SageParams) (edges : List (ℕ × ℕ)) (h : List (List ℚ)) :
    List (List ℚ) :=
  (List.range h.length).map (fun i =>
    vaddQ (linearQ p.linLW p.linLB (neighborMean edges h i))
      (matVec p.linRW (h.getD i [])))

/-- One `nn.LayerNorm(128)` row: normalize by mean and (biased) variance
over the feature dimension, then the elementwise affine transform.  The
square root of `variance + eps` uses the abstracted `sqrtf`. -/
def layerNormRow (ops : FloatOps) (p : LayerNormParams) (x : List ℚ) : List ℚ :=
  let n : ℚ := x.length
  let m := x.sum / n
  let v := (x.map (fun xi => (xi - m) ^ 2)).sum / n
  let denom := ops.sqrtf (v + 1 / 100000)
  List.zipWith (· + ·) (List.zipWith (· * ·) (x.map (fun xi => (xi - m) / denom)) p.gamma)
    p.beta

/-- `nn.Dropout(0.1)` as used inside `SunFiLM.mlp`: in training mode
torch multiplies by a random mask (the explicit `noise` argument); in
eval mode it is the identity. -/
def dropoutQ (training : Bool) (noise : List ℚ) (x : List ℚ) : List ℚ :=
  if training then List.zipWith (· * ·) noise x else x

/-- Embeds `SunFiLM.forward` (network.py): the MLP
`Linear(80, 64) → ReLU → Dropout(0.1) → Linear(64, 256)` produces
`(gamma, beta)` of width 128 each, then every node row is transformed as
`gamma * h + beta`. -/
def sunFilm (ops : FloatOps) (p : NetParams) (training : Bool) (dropNoise : List ℚ)
    (h : List (List ℚ)) (sun_vec : List ℚ) : List (List ℚ) :=
  let a := reluQ (linearQ p.filmW1 p.filmB1 sun_vec)
  let a := dropoutQ training dropNoise a
  let params := linearQ p.filmW2 p.filmB2 a
  let gamma := params.take 128
  let beta := params.drop 128
  h.map (fun row => vaddQ (List.zipWith (· * ·) gamma row) beta)

/-- Embeds `AwarenessPooling.forward` (network.py): select the rows of
the mask, softmax the per-row attention logits over exactly those rows
(an empty mask yields the zero vector), and return the attention-
weighted sum. -/
def awarenessPool (ops : FloatOps) (attnW : List (List ℚ)) (attnB : List ℚ)
    (node_features : List (List ℚ)) (mask : List Bool) : List ℚ :=
  let masked := ((node_features.zip mask).filter (fun rm => rm.2)).map (fun rm => rm.1)
  if masked.length = 0 then List.replicate 128 0
  else
    let logits := masked.map (fun row => (linearQ attnW attnB row).getD 0 0)
    let es := logits.map ops.expf
    let total := es.sum
    let weights := es.map (fun e => e / total)
    vsumQ (List.replicate 128 0) (List.zipWith smulQ weights masked)

/-- The four outputs of `QuantumHDNet.forward`. -/
structure ForwardOut where
  codon_scores : List ℚ
  awareness : List (String × ℚ)
  awareness_vectors : List (String × List ℚ)
  node_embeddings : List (List ℚ)
deriving Repr

/-- One awareness readout: pool with the named `AwarenessPooling` head,
then `sigmoid(Linear(128, 1))` with the named readout head.  Missing
parameter entries (never the case for the five fixed names) give zero
weights. -/
def awarenessReadout (ops : FloatOps) (p : NetParams) (h_observed : List (List ℚ))
    (masks : List (String × List Bool)) (name : String) : (List ℚ) × ℚ :=
  let pw := (dictGet p.poolW name).getD ([], [])
  let vec := awarenessPool ops pw.1 pw.2 h_observed ((dictGet masks name).getD [])
  let hw := (dictGet p.headW name).getD ([], [])
  (vec, sigmoidQ ops ((linearQ hw.1 hw.2 vec).getD 0 0))

/-- Embeds `QuantumHDNet.forward` (network.py): input projection + ReLU,
three rounds of `SAGEConv → LayerNorm → ReLU` with a residual add, FiLM
modulation from the sun context, the per-codon sigmoid scores, and the
five awareness poolings/readouts. -/
def netForward (ops : FloatOps) (p : NetParams) (training : Bool) (dropNoise : List ℚ)
    (x : List (List ℚ)) (edges : List (ℕ × ℕ)) (sun_context : List ℚ)
    (masks : List (String × List Bool)) : ForwardOut :=
  let h0 := x.map (fun row => reluQ (linearQ p.inputW p.inputB row))
  let h := (p.convs.zip p.norms).foldl
    (fun h cn =>
      let h_new := sageConv cn.1 edges h
      let h_new := h_new.map (layerNormRow ops cn.2)
      List.zipWith vaddQ (h_new.map reluQ) h)
    h0
  let h_observed := sunFilm ops p training dropNoise h sun_context
  let codon_scores := h_observed.map (fun row =>
    sigmoidQ ops ((linearQ p.codonW2 p.codonB2 (reluQ (linearQ p.codonW1 p.codonB1 row))).getD 0 0))
  let spleen := awarenessReadout ops p h_observed masks "spleen"
  let ajna := awarenessReadout ops p h_observed masks "ajna"
  let solar := awarenessReadout ops p h_observed masks "solar"
  let heart := awarenessReadout ops p h_observed masks "heart"
  let mind := awarenessReadout ops p h_observed masks "mind"
  { codon_scores := codon_scores
    awareness :=
      [("spleen", spleen.2), ("ajna", ajna.2), ("solar", solar.2),
       ("heart", heart.2), ("mind", mind.2)]
    awareness_vectors :=
      [("spleen_vec", spleen.1), ("ajna_vec", ajna.1), ("solar_vec", solar.1),
       ("heart_vec", heart.1), ("mind_vec", mind.1)]
    node_embeddings := h_observed }

/-! ## Interpretation layer (consciousness.py) -/

/-- Embeds the `ConsciousnessState` dataclass (consciousness.py). -/
structure ConsciousnessState where
  field_name : String
  activation : ℚ
  dominant_gates : List ℕ
  awareness_type : Option String
  coherence : ℚ
  resonance : List (String × ℚ)
  narrative_seed : String
deriving DecidableEq, Repr

/-- Embeds a `ConsciousnessField` object (consciousness.py): the data
stored by `__init__`.  `gatesEnum` is `list(self.gates)` in iteration
order, `gate_indices = [g - 1 for g in self.gates]`, and `embeddings`
is the (unused afterwards) slice `node_embeddings[self.gate_indices]`. -/
structure FieldObj where
  name : String
  gatesEnum : List ℕ
  gate_indices : List ℕ
  embeddings : List (List ℚ)
deriving Repr

/-- Embeds `ConsciousnessField.__init__` (consciousness.py). -/
def mkFieldObj (name : String) (node_embeddings : List (List ℚ)) : FieldObj :=
  let enum := fieldGatesEnum name
  let idx := enum.map (fun g => g - 1)
  { name := name
    gatesEnum := enum
    gate_indices := idx
    embeddings := idx.filterMap (fun i => node_embeddings[i]?) }

/-- The index of the maximum entry of `scores` among the indices not yet
chosen; for equal values the earlier index wins (only a strictly larger
score displaces the current best). -/
def argmaxRemaining (scores : List ℚ) (chosen : List ℕ) : Option ℕ :=
  ((List.range scores.length).filter (fun i => ¬ chosen.contains i)).foldl
    (fun best i =>
      match best with
      | none => some i
      | some b => if scores.getD b 0 < scores.getD i 0 then some i else best)
    none

/-- Indices of the `k` largest entries of `scores`, values descending,
equal values ordered by position ascending (selection of the running
maximum, earlier index first).  This embeds
`torch.topk(field_activations, k)` (CPU backend; for equal values the
observed behavior keeps the earlier index first).  `torch.topk`
documents no tie order at all; the C2 analysis relies only on the
enumeration order of the gate list, not on this modelling choice. -/
def topkIndices (scores : List ℚ) (k : ℕ) : List ℕ :=
  (List.range k).foldl
    (fun acc _ =>
      match argmaxRemaining scores acc with
      | some m => acc ++ [m]
      | none => acc)
    []

/-- Embeds the unbiased sample variance computed by `torch.std` (the
default `correction=1`), before the square root. -/
def sampleVariance (xs : List ℚ) : ℚ :=
  let n : ℚ := xs.length
  let m := xs.sum / n
  (xs.map (fun x => (x - m) ^ 2)).sum / (n - 1)

/-- Embeds `ConsciousnessField._compute_coherence` (consciousness.py):
`1.0` for fewer than two activations, else `1 / (1 + std)` where `std`
is `activations.std()` = `sqrt` of the unbiased sample variance
(via the abstracted `sqrtf`). -/
def compute_coherence (ops : FloatOps) (activations : List ℚ) : ℚ :=
  if activations.length < 2 then 1
  else 1 / (1 + ops.sqrtf (sampleVariance activations))

/-- The per-field narrative template of `_generate_narrative_seed`
(consciousness.py), assembled around the three formatted holes. -/
def seedTemplate (name : String) (activationStr gatesStr cohDesc : String) : String :=
  if name = "Mind" then
    "Mental field activated at " ++ activationStr ++ ", centered in gates " ++
      gatesStr ++ ", coherence " ++ cohDesc
  else if name = "Heart" then
    "Emotional resonance at " ++ activationStr ++ " through gates " ++
      gatesStr ++ ", coherence " ++ cohDesc
  else if name = "Body" then
    "Physical presence at " ++ activationStr ++ " via gates " ++
      gatesStr ++ ", coherence " ++ cohDesc
  else if name = "Soul" then
    "Soul essence vibrating at " ++ activationStr ++ " in gates " ++
      gatesStr ++ ", coherence " ++ cohDesc
  else if name = "Spirit" then
    "Spiritual expression at " ++ activationStr ++ " channeling gates " ++
      gatesStr ++ ", coherence " ++ cohDesc
  else if name = "Shadow" then
    "Shadow material at " ++ activationStr ++ " emerging through gates " ++
      gatesStr ++ ", coherence " ++ cohDesc
  else if name = "Higher" then
    "Higher consciousness at " ++ activationStr ++ " accessing gates " ++
      gatesStr ++ ", coherence " ++ cohDesc
  else if name = "Lower" then
    "Primal consciousness at " ++ activationStr ++ " rooted in gates " ++
      gatesStr ++ ", coherence " ++ cohDesc
  else if name = "Core" then
    "Core identity at " ++ activationStr ++ " anchored by gates " ++
      gatesStr ++ ", coherence " ++ cohDesc
  else
    "Field " ++ name ++ " at " ++ activationStr ++ " in gates " ++
      gatesStr ++ ", coherence " ++ cohDesc

/-- Embeds `ConsciousnessField._generate_narrative_seed`
(consciousness.py); percentage formatting goes through the abstracted
`fmtPct`. -/
def generate_narrative_seed (ops : FloatOps) (name : String) (activation : ℚ)
    (gates : List ℕ) (awareness_score : Option ℚ) (coherence : ℚ) : String :=
  let coherence_desc :=
    if 7/10 < coherence then "high" else if 2/5 < coherence then "moderate" else "low"
  let gates_str := String.intercalate ", " (gates.map (fun g => toString g))
  let seed := seedTemplate name (ops.fmtPct activation) gates_str coherence_desc
  match awareness_score with
  | some s =>
      seed ++ " | " ++ ((fieldAwareness name).getD "") ++ " awareness: " ++ ops.fmtPct s
  | none => seed

/-- Embeds `ConsciousnessField.collapse_to_state` (consciousness.py):
mean activation over the field's gates, the `torch.topk`-selected
dominant gates read back through `list(self.gates)`, the optional
awareness score, coherence, and the narrative seed.  The `resonance`
dict starts empty and is filled later by `_compute_resonances`. -/
def collapse_to_state (ops : FloatOps) (f : FieldObj) (codon_scores : List ℚ)
    (awareness : List (String × ℚ)) : ConsciousnessState :=
  let field_activations := f.gate_indices.filterMap (fun i => codon_scores[i]?)
  let overall_activation := field_activations.sum / field_activations.length
  let top_k := min 3 f.gate_indices.length
  let top_idx := topkIndices field_activations top_k
  let dominant_gates := top_idx.map (fun i => f.gatesEnum.getD i 0)
  let awareness_type := fieldAwareness f.name
  let awareness_score := awareness_type.bind (fun t => dictGet awareness t)
  let coherence := compute_coherence ops field_activations
  { field_name := f.name
    activation := overall_activation
    dominant_gates := dominant_gates
    awareness_type := awareness_type
    coherence := coherence
    resonance := []
    narrative_seed :=
      generate_narrative_seed ops f.name overall_activation dominant_gates
        awareness_score coherence }

/-- The Jaccard overlap used by `_compute_resonances`
(consciousness.py): `|g1 ∩ g2| / |g1 ∪ g2|`, and `0` when both gate
sets are empty (the `if gates1 or gates2` guard). -/
def jaccardOverlap (g1 g2 : Finset ℕ) : ℚ :=
  if g1 ≠ ∅ ∨ g2 ≠ ∅ then ((g1 ∩ g2).card : ℚ) / ((g1 ∪ g2).card : ℚ) else 0

/-- The resonance value `_compute_resonances` computes for one pair of
states: `(jaccard overlap of dominant gates + (1 - |Δcoherence|)) / 2`. -/
def pairResonance (s1 s2 : ConsciousnessState) : ℚ :=
  let overlap := jaccardOverlap s1.dominant_gates.toFinset s2.dominant_gates.toFinset
  let coherence_sim := 1 - |s1.coherence - s2.coherence|
  (overlap + coherence_sim) / 2

/-- One write pair of the `_compute_resonances` double loop: compute the
resonance of `states[i]` and `states[j]` and store it bidirectionally in
both states' resonance dicts (`state1.resonance[name2] = resonance`;
`state2.resonance[name1] = resonance`).  The loop only ever produces
`i < j`, and the two dict writes then land on two distinct state
objects, so the two `List.set` updates model the two in-place Python
mutations exactly. -/
def applyResonancePair (states : List ConsciousnessState) (i j : ℕ) :
    List ConsciousnessState :=
  match states[i]?, states[j]? with
  | some si, some sj =>
    let r := pairResonance si sj
    (states.set i { si with resonance := dictInsert si.resonance sj.field_name r }).set j
      { sj with resonance := dictInsert sj.resonance si.field_name r }
  | _, _ => states

/-- The index pairs `(i, j)` with `i < j < n`, in the iteration order of
the `_compute_resonances` double loop (`for i, name1 in enumerate(...)`,
inner loop over `field_names[i+1:]`). -/
def upperPairs (n : ℕ) : List (ℕ × ℕ) :=
  (List.range n).flatMap (fun i => ((List.range n).filter (fun j => i < j)).map (fun j => (i, j)))

/-- Embeds `NineBodyConsciousness._compute_resonances`
(consciousness.py): fill every state's resonance dict over all
unordered pairs. -/
def compute_resonances (states : List ConsciousnessState) : List ConsciousnessState :=
  (upperPairs states.length).foldl (fun acc p => applyResonancePair acc p.1 p.2) states

/-- Embeds `NineBodyConsciousness.collapse_all_fields` (consciousness.py):
collapse each field in dict order, then compute the pairwise
resonances.  The states dict is modelled as the list of states in field
order (keys are the distinct `field_name`s). -/
def collapse_all_fields (ops : FloatOps) (fields : List FieldObj)
    (codon_scores : List ℚ) (awareness : List (String × ℚ)) :
    List ConsciousnessState :=
  compute_resonances (fields.map (fun f => collapse_to_state ops f codon_scores awareness))

/-- Embeds `NineBodyConsciousness._combine_seeds` (consciousness.py). -/
def combine_seeds (seeds : List String) (label : String) : String :=
  label ++ ": " ++ String.intercalate " | " seeds

/-- The narrative seed of one state looked up by field name (empty
list when the field is absent, matching `if f in states`). -/
def seedsOf (states : List ConsciousnessState) (names : List String) : List String :=
  names.filterMap (fun n =>
    (states.find? (fun s => s.field_name = n)).map (fun s => s.narrative_seed))

/-- Embeds `NineBodyConsciousness.synthesize_narrative_seeds`
(consciousness.py): the four labelled bundles, keyed `spleen`, `ajna`,
`solar`, `core` in insertion order. -/
def synthesize_narrative_seeds (states : List ConsciousnessState) :
    List (String × String) :=
  [ ("spleen", combine_seeds (seedsOf states ["Body", "Lower", "Shadow"]) "Survival consciousness"),
    ("ajna", combine_seeds (seedsOf states ["Mind", "Higher"]) "Mental consciousness"),
    ("solar", combine_seeds (seedsOf states ["Heart", "Spirit"]) "Emotional consciousness"),
    ("core", combine_seeds (seedsOf states ["Soul", "Core"]) "Core identity") ]

/-! ## Engine (engine.py) -/

/-- Embeds the `VirtualConsciousnessResponse` dataclass (engine.py);
`observer_context` is the pair of the optional body-Sun gate and line. -/
structure Response where
  question : String
  codon_activations : List (ℕ × ℚ)
  awareness_scores : List (String × ℚ)
  field_states : List ConsciousnessState
  narrative_seeds : List (String × String)
  coherence_level : ℚ
  observer_context : Option ℕ × Option ℕ
deriving Repr

/-- The mutable state of a `VirtualConsciousnessEngine` (engine.py):
the constructor-time data plus the lazily-initialized
`NineBodyConsciousness` fields (`_consciousness_initialized`). -/
structure EngineState where
  birth_placements : List Placement
  params : NetParams
  training : Bool
  body_sun : Option Placement
  fields : List FieldObj
  consciousness_initialized : Bool
deriving Repr

/-- Embeds `VirtualConsciousnessEngine._find_body_sun` (engine.py): the
first placement whose planet is `"Sun"` on the body stream. -/
def find_body_sun (placements : List Placement) : Option Placement :=
  placements.find? (fun p => p.planet = "Sun" ∧ p.stream = Stream.body)

/-- Embeds `VirtualConsciousnessEngine.__init__` (engine.py): store the
placements and the (loaded-once) network parameters, put the network in
eval mode (`training = false`), extract the body Sun, and leave the
nine-body consciousness uninitialized. -/
def mkEngine (birth_placements : List Placement) (params : NetParams) : EngineState :=
  { birth_placements := birth_placements
    params := params
    training := false
    body_sun := find_body_sun birth_placements
    fields := []
    consciousness_initialized := false }

/-- The sun-context selection of `VirtualConsciousnessEngine.query`
(engine.py, steps 3): an explicit observer override wins, else the body
Sun, else the all-zero width-80 fallback vector. -/
def selectSunContext (observer_sun : Option Placement) (body_sun : Option Placement) :
    List ℚ :=
  match observer_sun with
  | some p => encode_sun_context p
  | none =>
    match body_sun with
    | some p => encode_sun_context p
    | none => List.replicate 80 0

/-- Embeds `NineBodyConsciousness.initialize_from_quantum_state`
(consciousness.py): build the nine `ConsciousnessField` objects from the
node embeddings, in `CONSCIOUSNESS_FIELDS` order. -/
def initialize_fields (node_embeddings : List (List ℚ)) : List FieldObj :=
  FIELD_NAMES.map (fun n => mkFieldObj n node_embeddings)

/-- Embeds `VirtualConsciousnessEngine._compute_system_coherence`
(engine.py): the mean field coherence averaged with the mean of all
stored resonance values (0 if there are none). -/
def compute_system_coherence (field_states : List ConsciousnessState) : ℚ :=
  if field_states = [] then 0
  else
    let coherences := field_states.map (fun s => s.coherence)
    let avg_coherence := coherences.sum / coherences.length
    let all_resonances := field_states.flatMap (fun s => s.resonance.map (fun e => e.2))
    let avg_resonance :=
      if all_resonances = [] then 0 else all_resonances.sum / all_resonances.length
    (avg_coherence + avg_resonance) / 2

/-- Embeds `VirtualConsciousnessEngine.query` (engine.py) as a state
transition.  `randn` is the `torch.randn(64)` draw consumed by
`create_intention_perturbation` (consulted only when
`use_intention_perturbation` is true); `dropNoise` is the dropout mask
draw of `SunFiLM` (consulted only in training mode, never here since
the engine constructor sets eval mode). -/
def engineQuery (ops : FloatOps) (s : EngineState) (question : String)
    (observer_sun : Option Placement) (use_intention_perturbation : Bool)
    (randn : List ℚ) (dropNoise : List ℚ) : EngineState × Response :=
  let node_features0 := encode_placements s.birth_placements
  let node_features :=
    if use_intention_perturbation then
      let perturbation := create_intention_perturbation randn s.birth_placements
      -- node_features + perturbation.unsqueeze(1) * 0.1 : row i is shifted by
      -- 0.1 * perturbation[i] in every coordinate
      List.zipWith (fun row c => row.map (fun v => v + c * (1/10))) node_features0 perturbation
    else node_features0
  let sun_context := selectSunContext observer_sun s.body_sun
  let out := netForward ops s.params s.training dropNoise node_features get_edge_index
    sun_context get_awareness_masks
  let fields :=
    if s.consciousness_initialized then s.fields
    else initialize_fields out.node_embeddings
  let field_states := collapse_all_fields ops fields out.codon_scores out.awareness
  let narrative_seeds := synthesize_narrative_seeds field_states
  let coherence_level := compute_system_coherence field_states
  let response : Response :=
    { question := question
      codon_activations := out.codon_scores.mapIdx (fun i sc => (i + 1, sc))
      awareness_scores := out.awareness
      field_states := field_states
      narrative_seeds := narrative_seeds
      coherence_level := coherence_level
      observer_context := (s.body_sun.map (fun p => p.gate), s.body_sun.map (fun p => p.line)) }
  ({ s with fields := fields, consciousness_initialized := true }, response)

/-! ## Configuration / adjustment layer (adjustable.py) -/

/-- Embeds the `ConsciousnessConfiguration` dataclass (adjustable.py),
after `__post_init__` has filled the two `None`-able dicts. -/
structure Config where
  primary_chart_system : ChartSystem := ChartSystem.sidereal
  allow_transits : Bool := true
  transit_weight : ℚ := 3/10
  allow_progressions : Bool := true
  progression_weight : ℚ := 1/5
  awareness_sensitivity : List (String × ℚ) :=
    [("spleen", 1), ("ajna", 1), ("solar", 1)]
  field_emphasis : List (String × ℚ) :=
    [("Mind", 1), ("Heart", 1), ("Body", 1), ("Soul", 1), ("Spirit", 1),
     ("Shadow", 1), ("Higher", 1), ("Lower", 1), ("Core", 1)]
  coherence_threshold : ℚ := 1/2
deriving Repr

/-- One history entry appended by `AdjustableConsciousness.query`
(adjustable.py); the exported config dict is modelled by the `Config`
snapshot it is derived from. -/
structure HistEntry where
  question : String
  response : Response
  config : Config
deriving Repr

/-- The mutable state of an `AdjustableConsciousness` (adjustable.py).
The datetime/location constructor arguments are opaque to every
embedded code path and are omitted. -/
structure AdjState where
  natal_placements : List Placement
  config : Config
  current_transits : Option (List Placement)
  current_progressions : Option (List Placement)
  query_history : List HistEntry
deriving Repr

/-- Embeds `AdjustableConsciousness._build_composite_placements`
(adjustable.py): natal list plus the optional transit and progression
overlays (plain concatenation); the inner `if use_transits and
self.current_transits` is Python truthiness, so an empty overlay list
is also skipped. -/
def build_composite_placements (s : AdjState) (use_transits use_progressions : Bool) :
    List Placement :=
  let composite := s.natal_placements
  let composite :=
    match s.current_transits with
    | some l => if use_transits ∧ l ≠ [] then composite ++ l else composite
    | none => composite
  match s.current_progressions with
  | some l => if use_progressions ∧ l ≠ [] then composite ++ l else composite
  | none => composite

/-- Embeds `AdjustableConsciousness._apply_awareness_adjustments`
(adjustable.py): each awareness score with a configured sensitivity is
multiplied by it and clamped to `[0, 1]`
(`min(1.0, max(0.0, score * sensitivity))`); scores of systems without
a configured sensitivity are kept unchanged. -/
def apply_awareness_adjustments (sensitivity : List (String × ℚ)) (r : Response) :
    Response :=
  { r with
    awareness_scores := r.awareness_scores.map (fun e =>
      match dictGet sensitivity e.1 with
      | some f => (e.1, min 1 (max 0 (e.2 * f)))
      | none => e) }

/-- Embeds `AdjustableConsciousness._apply_field_adjustments`
(adjustable.py): each field state whose name has a configured emphasis
gets `activation := min(1.0, activation * emphasis)` (upper clamp
only). -/
def apply_field_adjustments (emphasis : List (String × ℚ)) (r : Response) : Response :=
  { r with
    field_states := r.field_states.map (fun st =>
      match dictGet emphasis st.field_name with
      | some f => { st with activation := min 1 (st.activation * f) }
      | none => st) }

/-- Embeds `AdjustableConsciousness.query` (adjustable.py) as a state
transition: build the composite placements, construct a *fresh*
temporary `VirtualConsciousnessEngine` over them (its untrained/loaded
parameter draw is the explicit `params` argument), query it with
`use_intention_perturbation = (intention_strength > 0)`, apply the two
adjustment passes, and append to the query history.  The
below-threshold coherence check only prints a warning and is not part
of the state or the response. -/
def adjQuery (ops : FloatOps) (s : AdjState) (question : String)
    (use_transits : Bool) (use_progressions : Bool) (intention_strength : ℚ)
    (params : NetParams) (randn : List ℚ) (dropNoise : List ℚ) :
    AdjState × Response :=
  let composite := build_composite_placements s
    (use_transits && s.current_transits.isSome)
    (use_progressions && s.current_progressions.isSome)
  let temp_engine := mkEngine composite params
  let qr := engineQuery ops temp_engine question none
    (decide (0 < intention_strength)) randn dropNoise
  let response := apply_awareness_adjustments s.config.awareness_sensitivity qr.2
  let response := apply_field_adjustments s.config.field_emphasis response
  let entry : HistEntry :=
    { question := question, response := response, config := s.config }
  ({ s with query_history := s.query_history ++ [entry] }, response)

/-- Embeds `AdjustableConsciousness.compare_configurations`
(adjustable.py): save the current config, run `query(question)` (with
its default arguments `use_transits=True`, `use_progressions=True`,
`intention_strength=1.0`) once per configuration with that
configuration swapped into the engine's `config` field, collect the
responses keyed `config_i`, and restore the original config.  Each
iteration's fresh temporary engine gets its own parameter and noise
draws, supplied by the indexed functions. -/
def compare_configurations (ops : FloatOps) (s : AdjState) (question : String)
    (configs : List Config) (paramsAt : ℕ → NetParams) (randnAt : ℕ → List ℚ)
    (dropAt : ℕ → List ℚ) : AdjState × List (String × Response) :=
  let original_config := s.config
  let final := configs.enum.foldl
    (fun acc ic =>
      let st := { acc.1 with config := ic.2 }
      let qr := adjQuery ops st question true true 1 (paramsAt ic.1) (randnAt ic.1)
        (dropAt ic.1)
      (qr.1, acc.2 ++ [("config_" ++ toString ic.1, qr.2)]))
    (s, [])
  ({ final.1 with config := original_config }, final.2)

/-! ## Claims -/

set_option maxRecDepth 4000 in
/-- C4: for every channel triple `(g1, g2, name)` in the static
`CHANNELS` definition (including pairs listed more than once, in either
orientation), the edge list built by `get_channel_edges` contains both
the directed edge `(g1, g2)` and the directed edge `(g2, g1)` exactly
once each, and the edge list has no duplicate edges. -/
theorem claim_C4_edge_symmetry :
    (∀ c ∈ CHANNELS, get_channel_edges.count (c.1, c.2.1) = 1 ∧
      get_channel_edges.count (c.2.1, c.1) = 1) ∧ get_channel_edges.Nodup := by
  decide

/-- Witness for C4 at the first channel triple `(64, 47)`. -/
theorem claim_C4_edge_symmetry_witness :
    (64, 47, "Abstract/Reason") ∈ CHANNELS ∧
      get_channel_edges.count (64, 47) = 1 ∧ get_channel_edges.count (47, 64) = 1 :=
  ⟨by decide, claim_C4_edge_symmetry.1 (64, 47, "Abstract/Reason") (by decide)⟩

/-- A trivial instance of the abstracted float primitives, used by the
concrete witnesses below. -/
def trivOps : FloatOps :=
  { sqrtf := fun _ => 0, expf := fun _ => 0, fmtPct := fun _ => "" }

/-- An empty parameter record, used by the concrete witnesses below. -/
def zeroParams : NetParams :=
  { inputW := [], inputB := [], convs := [], norms := []
    filmW1 := [], filmB1 := [], filmW2 := [], filmB2 := []
    codonW1 := [], codonB1 := [], codonW2 := [], codonB2 := []
    poolW := [], headW := [] }

/-- C5: `_compute_coherence` returns exactly `1` when the field has
fewer than 2 activations; with at least 2 activations it returns
`1 / (1 + std)` where `std` is the (nonnegative) square root of the
unbiased sample variance of the activations, and the result always lies
in the interval `(0, 1]`. -/
theorem claim_C5_coherence_bounds (ops : FloatOps) (activations : List ℚ)
    (hs : 2 ≤ activations.length →
      0 ≤ ops.sqrtf (sampleVariance activations) ∧
        ops.sqrtf (sampleVariance activations) * ops.sqrtf (sampleVariance activations) =
          sampleVariance activations) :
    (activations.length < 2 → compute_coherence ops activations = 1) ∧
      (2 ≤ activations.length →
        compute_coherence ops activations =
            1 / (1 + ops.sqrtf (sampleVariance activations)) ∧
          0 < compute_coherence ops activations ∧ compute_coherence ops activations ≤ 1) := by
  constructor
  · intro h
    simp [compute_coherence, h]
  · intro h
    have hlt : ¬ activations.length < 2 := by omega
    have hnn : 0 ≤ ops.sqrtf (sampleVariance activations) := (hs h).1
    have hpos : (0 : ℚ) < 1 + ops.sqrtf (sampleVariance activations) := by linarith
    refine ⟨by simp [compute_coherence, hlt], ?_, ?_⟩
    · simp only [compute_coherence, if_neg hlt]
      positivity
    · simp only [compute_coherence, if_neg hlt]
      rw [div_le_one hpos]
      linarith

/-- Witness for C5 at the two-element activation list `[1/2, 1/2]`
(sample variance `0`, square root `0`): coherence is `1/(1+0)` and lies
in `(0, 1]`. -/
theorem claim_C5_coherence_bounds_witness :
    2 ≤ ([(1 : ℚ)/2, 1/2]).length ∧
      compute_coherence trivOps [(1 : ℚ)/2, 1/2] = 1 / (1 + trivOps.sqrtf (sampleVariance [(1 : ℚ)/2, 1/2])) ∧
      0 < compute_coherence trivOps [(1 : ℚ)/2, 1/2] ∧
      compute_coherence trivOps [(1 : ℚ)/2, 1/2] ≤ 1 :=
  ⟨by decide,
    (claim_C5_coherence_bounds trivOps [(1 : ℚ)/2, 1/2]
      (fun _ => ⟨by norm_num [trivOps], by norm_num [trivOps, sampleVariance]⟩)).2
      (by decide)⟩

/-- C7: for a placement list containing no body-stream Sun placement,
the engine finds no body Sun (`body_sun = None`), and the observer
context the query path selects in the absence of an observer override is
the all-zero vector of width 80 — a silent fallback, not an error
(`selectSunContext` is the embedding of step 3 of
`VirtualConsciousnessEngine.query`, and is total). -/
theorem claim_C7_missing_observer_fallback (placements : List Placement)
    (params : NetParams)
    (h : ∀ p ∈ placements, ¬ (p.planet = "Sun" ∧ p.stream = Stream.body)) :
    (mkEngine placements params).body_sun = none ∧
      selectSunContext none (mkEngine placements params).body_sun =
        List.replicate 80 0 := by
  have hfind : find_body_sun placements = none := by
    rw [find_body_sun, List.find?_eq_none]
    intro p hp
    simpa using h p hp
  refine ⟨hfind, ?_⟩
  simp [mkEngine, hfind, selectSunContext]

/-- Witness for C7 at a one-placement list holding only a design-stream
Moon. -/
theorem claim_C7_missing_observer_fallback_witness :
    (mkEngine [{ planet := "Moon", stream := Stream.design, gate := 18, line := 5 }]
        zeroParams).body_sun = none ∧
      selectSunContext none
          (mkEngine [{ planet := "Moon", stream := Stream.design, gate := 18, line := 5 }]
            zeroParams).body_sun =
        List.replicate 80 0 :=
  claim_C7_missing_observer_fallback _ zeroParams (by decide)

/-- C8: every awareness score with a configured sensitivity factor `f`
(of any magnitude) is adjusted to `min(1, max(0, score * f))`, which
always lies in `[0, 1]`; scores of systems without a configured
sensitivity are kept unchanged. -/
theorem claim_C8_adjustment_clamping (sens : List (String × ℚ)) (r : Response) :
    (∀ e ∈ r.awareness_scores, ∀ f, dictGet sens e.1 = some f →
        (e.1, min 1 (max 0 (e.2 * f))) ∈ (apply_awareness_adjustments sens r).awareness_scores ∧
          0 ≤ min 1 (max 0 (e.2 * f)) ∧ min 1 (max 0 (e.2 * f)) ≤ 1) ∧
      (∀ e ∈ r.awareness_scores, dictGet sens e.1 = none →
        e ∈ (apply_awareness_adjustments sens r).awareness_scores) := by
  constructor
  · intro e he f hf
    refine ⟨?_, le_min (by norm_num) (le_max_left 0 _), min_le_left 1 _⟩
    have := List.mem_map_of_mem (fun e : String × ℚ =>
      match dictGet sens e.1 with
      | some f => (e.1, min 1 (max 0 (e.2 * f)))
      | none => e) he
    simpa [apply_awareness_adjustments, hf] using this
  · intro e he hf
    have := List.mem_map_of_mem (fun e : String × ℚ =>
      match dictGet sens e.1 with
      | some f => (e.1, min 1 (max 0 (e.2 * f)))
      | none => e) he
    simpa [apply_awareness_adjustments, hf] using this

/-- A minimal concrete response record for the C8 witness. -/
def sampleResponse : Response :=
  { question := "q"
    codon_activations := []
    awareness_scores := [("spleen", 1/2), ("heart", 1/3)]
    field_states := []
    narrative_seeds := []
    coherence_level := 0
    observer_context := (none, none) }

/-- Witness for C8: sensitivity `5.0` on score `0.5` clamps to `1.0`
(the spec's own example), and the unconfigured `heart` score passes
through unchanged. -/
theorem claim_C8_adjustment_clamping_witness :
    (("spleen" : String), ((1 : ℚ)/2)) ∈ sampleResponse.awareness_scores ∧
      dictGet [("spleen", (5 : ℚ))] "spleen" = some 5 ∧
      ("spleen", min 1 (max 0 ((1 : ℚ)/2 * 5))) ∈
        (apply_awareness_adjustments [("spleen", 5)] sampleResponse).awareness_scores ∧
      (("heart" : String), ((1 : ℚ)/3)) ∈
        (apply_awareness_adjustments [("spleen", 5)] sampleResponse).awareness_scores :=
  ⟨by simp [sampleResponse], by rfl,
    ((claim_C8_adjustment_clamping [("spleen", 5)] sampleResponse).1
      ("spleen", 1/2) (by simp [sampleResponse]) 5 (by rfl)).1,
    (claim_C8_adjustment_clamping [("spleen", 5)] sampleResponse).2
      ("heart", 1/3) (by simp [sampleResponse]) (by rfl)⟩

/-- In `_encode_gate_placements` a placement whose planet is unknown is
skipped entirely by the fold (both the presence write and the line
increment sit inside the `if p.planet in self.planet_to_idx` guard). -/
theorem encodeGateFold_filter_known (pl : List Placement) (acc : List ℚ × List ℚ) :
    pl.foldl encodeGateStep acc =
      (pl.filter (fun p => (planet_to_idx p.planet).isSome)).foldl encodeGateStep acc := by
  induction pl generalizing acc with
  | nil => rfl
  | cons p rest ih =>
    cases hp : planet_to_idx p.planet with
    | some i =>
      simp only [List.foldl_cons, List.filter_cons, hp, Option.isSome_some, if_pos]
      exact ih _
    | none =>
      have hstep : encodeGateStep acc p = acc := by
        simp [encodeGateStep, hp]
      simp only [List.foldl_cons, List.filter_cons, hp, Option.isSome_none, hstep]
      exact ih _

/-- C3 counterexample: at the concrete placement list
`[Sun@line1, Chiron@line2]` ("Chiron" is not among the known entity
names), the encoded gate feature's normalized line histogram (entries
13..18) is `[1, 0, 0, 0, 0, 0]`: the unknown placement's line 2 slot
(index 14) is `0`, not the `1/2` the claim's "still contributes to the
normalized line histogram" would give, while the line slot of the known
Sun placement (index 13) holds the full weight `1`. -/
theorem claim_C3_counterexample :
    (encode_gate_placements
        [{ planet := "Sun", stream := Stream.body, gate := 5, line := 1 },
         { planet := "Chiron", stream := Stream.body, gate := 5, line := 2 }]).getD 14 0 = 0 ∧
      (encode_gate_placements
        [{ planet := "Sun", stream := Stream.body, gate := 5, line := 1 },
         { planet := "Chiron", stream := Stream.body, gate := 5, line := 2 }]).getD 13 0 = 1 ∧
      ((0 : ℚ) ≠ 1/2) := by
  have hne : ¬([{ planet := "Sun", stream := Stream.body, gate := 5, line := 1 },
      { planet := "Chiron", stream := Stream.body, gate := 5, line := 2 }] : List Placement) = [] := by
    simp
  refine ⟨?_, ?_, by norm_num⟩ <;>
  · rw [encode_gate_placements, if_neg hne]
    simp only [List.foldl_cons, List.foldl_nil, encodeGateStep,
      show planet_to_idx "Sun" = some 0 from rfl, show planet_to_idx "Chiron" = none from rfl]
    norm_num [List.set, List.getD, List.get?]

/-- C3 (amended): a placement whose entity name is not among the known
entity names contributes to *neither* the one-hot presence sub-vector
*nor* the line histogram of the encoded gate feature: the encoding of
any placement list equals the encoding of the list with all
unknown-entity placements removed (and in particular unknown names are
silently ignored, never an error — `encode_gate_placements` is total). -/
theorem claim_C3_amended (placements : List Placement) :
    encode_gate_placements placements =
      encode_gate_placements
        (placements.filter (fun p => (planet_to_idx p.planet).isSome)) := by
  by_cases h0 : placements = []
  · subst h0
    rfl
  · cases hf : placements.filter (fun p => (planet_to_idx p.planet).isSome) with
    | nil =>
      rw [encode_gate_placements, if_neg h0, encodeGateFold_filter_known, hf]
      norm_num [encode_gate_placements, List.sum_replicate]
    | cons q qs =>
      rw [encode_gate_placements, if_neg h0, encodeGateFold_filter_known, hf,
        encode_gate_placements, if_neg (by simp : ¬ q :: qs = []), ← hf]

/-- C2 failing input (the claimed gate-number-ascending tie-break does
not exist in the code): the "Higher" field's gate set is `{64, 61, 63}`,
which CPython enumerates as `[64, 61, 63]`; with all 64 gate scores
equal (here constantly `1`), `collapse_to_state` returns the dominant
gates in that enumeration order — gate 64 is ranked before the
lower-numbered gates 61 and 63, whereas the claim requires
`[61, 63, 64]`.  (`torch.topk` guarantees no tie order at all, so no
gate-number tie-break exists on any reading; the embedded `topkIndices`
uses the observed position-stable behavior.) -/
theorem claim_C2_tiebreak_failing_input :
    (collapse_to_state trivOps
          (mkFieldObj "Higher" (List.replicate 64 (List.replicate 128 (0 : ℚ))))
          (List.replicate 64 (1 : ℚ)) []).dominant_gates = [64, 61, 63] ∧
      ([64, 61, 63] : List ℕ) ≠ [61, 63, 64] := by
  constructor
  · decide
  · decide

/-! ### Resonance-map bookkeeping for C6 -/

/-- Lookup after a dict write of the same key. -/
theorem dictGet_dictInsert_self (m : List (String × α)) (k : String) (v : α) :
    dictGet (dictInsert m k v) k = some v := by
  induction m with
  | nil => simp [dictInsert, dictGet]
  | cons e rest ih =>
    by_cases h : e.1 = k
    · simp [dictInsert, dictGet, h]
    · simp [dictInsert, dictGet, h, ih]

/-- Lookup after a dict write of a different key. -/
theorem dictGet_dictInsert_ne (m : List (String × α)) (k k' : String) (v : α)
    (h : k' ≠ k) : dictGet (dictInsert m k' v) k = dictGet m k := by
  induction m with
  | nil => simp [dictInsert, dictGet, h]
  | cons e rest ih =>
    by_cases he : e.1 = k'
    · simp [dictInsert, dictGet, he, h]
    · simp only [dictInsert, if_neg he]
      by_cases hek : e.1 = k
      · simp [dictGet, hek]
      · simp [dictGet, hek, ih]

/-- The field name of `states[k]` (empty string out of range). -/
def nameAt (states : List ConsciousnessState) (k : ℕ) : String :=
  ((states[k]?).map (fun s => s.field_name)).getD ""

/-- The state at index `k` (a default record out of range). -/
def stateAt (states : List ConsciousnessState) (k : ℕ) : ConsciousnessState :=
  (states[k]?).getD ⟨"", 0, [], none, 0, [], ""⟩

/-- The resonance value stored under `key` in the resonance dict of
`states[i]` after `_compute_resonances` has run — the read the claim is
about. -/
def resLookup (states : List ConsciousnessState) (i : ℕ) (key : String) : Option ℚ :=
  match states[i]? with
  | some s => dictGet s.resonance key
  | none => none

/-- The name / dominant gates / coherence skeleton of a state: the data
`_compute_resonances` reads but never writes. -/
def skel (s : ConsciousnessState) : String × List ℕ × ℚ :=
  (s.field_name, s.dominant_gates, s.coherence)

/-- `applyResonancePair` preserves the length of the state list. -/
theorem applyResonancePair_length (states : List ConsciousnessState) (a b : ℕ) :
    (applyResonancePair states a b).length = states.length := by
  unfold applyResonancePair
  cases ha : states[a]? with
  | none => rfl
  | some sa =>
    cases hb : states[b]? with
    | none => rfl
    | some sb => simp

/-- `applyResonancePair` preserves every state's skeleton. -/
theorem applyResonancePair_skel (states : List ConsciousnessState) (a b k : ℕ) :
    ((applyResonancePair states a b)[k]?).map skel = (states[k]?).map skel := by
  unfold applyResonancePair
  cases ha : states[a]? with
  | none => rfl
  | some sa =>
    cases hb : states[b]? with
    | none => rfl
    | some sb =>
      have hal : a < states.length := (List.getElem?_eq_some.mp ha).1
      have hbl : b < states.length := (List.getElem?_eq_some.mp hb).1
      simp only
      by_cases hkb : b = k
      · subst hkb
        rw [List.getElem?_set_self (by simpa using hbl), hb]
        rfl
      · rw [List.getElem?_set_ne hkb]
        by_cases hka : a = k
        · subst hka
          rw [List.getElem?_set_self hal, ha]
          rfl
        · rw [List.getElem?_set_ne hka]

/-- After the write pair for `(i, j)`, state `i`'s dict holds the pair
resonance under state `j`'s name. -/
theorem applyResonancePair_lookup_left (states : List ConsciousnessState)
    {i j : ℕ} {si sj : ConsciousnessState} (hij : i ≠ j)
    (hi : states[i]? = some si) (hj : states[j]? = some sj) :
    resLookup (applyResonancePair states i j) i sj.field_name =
      some (pairResonance si sj) := by
  have hil : i < states.length := (List.getElem?_eq_some.mp hi).1
  unfold applyResonancePair resLookup
  simp only [hi, hj]
  rw [List.getElem?_set_ne (fun h => hij h.symm), List.getElem?_set_self hil]
  exact dictGet_dictInsert_self _ _ _

/-- After the write pair for `(i, j)`, state `j`'s dict holds the pair
resonance under state `i`'s name. -/
theorem applyResonancePair_lookup_right (states : List ConsciousnessState)
    {i j : ℕ} {si sj : ConsciousnessState}
    (hi : states[i]? = some si) (hj : states[j]? = some sj) :
    resLookup (applyResonancePair states i j) j si.field_name =
      some (pairResonance si sj) := by
  have hjl : j < states.length := (List.getElem?_eq_some.mp hj).1
  unfold applyResonancePair resLookup
  simp only [hi, hj]
  rw [List.getElem?_set_self (by simpa using hjl)]
  exact dictGet_dictInsert_self _ _ _

/-- A write pair for `(a, b)` leaves the entry of `key` in state `i`'s
dict unchanged whenever the keys it writes into state `i` (if any)
differ from `key`. -/
theorem applyResonancePair_lookup_other (states : List ConsciousnessState)
    (a b i : ℕ) (key : String)
    (hA : a = i → nameAt states b ≠ key) (hB : b = i → nameAt states a ≠ key) :
    resLookup (applyResonancePair states a b) i key = resLookup states i key := by
  unfold applyResonancePair
  cases ha : states[a]? with
  | none => rfl
  | some sa =>
    cases hb : states[b]? with
    | none => rfl
    | some sb =>
      have hal : a < states.length := (List.getElem?_eq_some.mp ha).1
      have hbl : b < states.length := (List.getElem?_eq_some.mp hb).1
      unfold resLookup
      simp only
      by_cases hbi : b = i
      · subst hbi
        rw [List.getElem?_set_self (by simpa using hbl), hb]
        exact dictGet_dictInsert_ne _ _ _ _ (by simpa [nameAt, ha] using hB rfl)
      · rw [List.getElem?_set_ne hbi]
        by_cases hai : a = i
        · subst hai
          rw [List.getElem?_set_self hal, ha]
          exact dictGet_dictInsert_ne _ _ _ _ (by simpa [nameAt, hb] using hA rfl)
        · rw [List.getElem?_set_ne hai]

/-- The resonance fold preserves the list length. -/
theorem foldPairs_length (P : List (ℕ × ℕ)) (states : List ConsciousnessState) :
    (P.foldl (fun acc p => applyResonancePair acc p.1 p.2) states).length =
      states.length := by
  induction P generalizing states with
  | nil => rfl
  | cons p P ih => rw [List.foldl_cons, ih, applyResonancePair_length]

/-- The resonance fold preserves every state's skeleton. -/
theorem foldPairs_skel (P : List (ℕ × ℕ)) (states : List ConsciousnessState) (k : ℕ) :
    ((P.foldl (fun acc p => applyResonancePair acc p.1 p.2) states)[k]?).map skel =
      (states[k]?).map skel := by
  induction P generalizing states with
  | nil => rfl
  | cons p P ih => rw [List.foldl_cons, ih, applyResonancePair_skel]

/-- Equal skeletons at an index give equal names there. -/
theorem nameAt_eq_of_skel {s1 s2 : List ConsciousnessState} (k : ℕ)
    (h : (s1[k]?).map skel = (s2[k]?).map skel) : nameAt s1 k = nameAt s2 k := by
  unfold nameAt
  cases h1 : s1[k]? with
  | none =>
    cases h2 : s2[k]? with
    | none => rfl
    | some t => rw [h1, h2] at h; simp at h
  | some t =>
    cases h2 : s2[k]? with
    | none => rw [h1, h2] at h; simp at h
    | some u =>
      rw [h1, h2] at h
      have hsk : skel t = skel u := by simpa using h
      have : t.field_name = u.field_name := congrArg Prod.fst hsk
      simp [this]

/-- `pairResonance` only reads the skeleton of its arguments. -/
theorem pairResonance_congr {s t s' t' : ConsciousnessState}
    (hs : skel s = skel s') (ht : skel t = skel t') :
    pairResonance s t = pairResonance s' t' := by
  have hs1 : s.dominant_gates = s'.dominant_gates := congrArg (fun p => p.2.1) hs
  have hs2 : s.coherence = s'.coherence := congrArg (fun p => p.2.2) hs
  have ht1 : t.dominant_gates = t'.dominant_gates := congrArg (fun p => p.2.1) ht
  have ht2 : t.coherence = t'.coherence := congrArg (fun p => p.2.2) ht
  unfold pairResonance
  rw [hs1, hs2, ht1, ht2]

/-- Equal skeletons at an index make `pairResonance` of the stored
states agree. -/
theorem pairResonance_stateAt_eq {s1 s2 : List ConsciousnessState} (i j : ℕ)
    (hi : (s1[i]?).map skel = (s2[i]?).map skel)
    (hj : (s1[j]?).map skel = (s2[j]?).map skel) :
    pairResonance (stateAt s1 i) (stateAt s1 j) =
      pairResonance (stateAt s2 i) (stateAt s2 j) := by
  apply pairResonance_congr
  · unfold stateAt
    cases h1 : s1[i]? with
    | none =>
      cases h2 : s2[i]? with
      | none => rfl
      | some t => rw [h1, h2] at hi; simp at hi
    | some t =>
      cases h2 : s2[i]? with
      | none => rw [h1, h2] at hi; simp at hi
      | some u => rw [h1, h2] at hi; simpa using hi
  · unfold stateAt
    cases h1 : s1[j]? with
    | none =>
      cases h2 : s2[j]? with
      | none => rfl
      | some t => rw [h1, h2] at hj; simp at hj
    | some t =>
      cases h2 : s2[j]? with
      | none => rw [h1, h2] at hj; simp at hj
      | some u => rw [h1, h2] at hj; simpa using hj

/-- A fold over write pairs not containing `(i, j)` leaves the two
lookups of the pair `(i, j)` unchanged. -/
theorem foldPairs_preserve_lookup (i j : ℕ) (hij : i < j) (P : List (ℕ × ℕ)) :
    ∀ states : List ConsciousnessState, j < states.length →
      (∀ p ∈ P, p.1 < p.2 ∧ p.2 < states.length) → (i, j) ∉ P →
      (∀ k l, k < states.length → l < states.length → k ≠ l →
        nameAt states k ≠ nameAt states l) →
      resLookup (P.foldl (fun acc p => applyResonancePair acc p.1 p.2) states) i
          (nameAt states j) = resLookup states i (nameAt states j) ∧
        resLookup (P.foldl (fun acc p => applyResonancePair acc p.1 p.2) states) j
          (nameAt states i) = resLookup states j (nameAt states i) := by
  induction P with
  | nil => exact fun states _ _ _ _ => ⟨rfl, rfl⟩
  | cons p P ih =>
    intro states hjl hP hnotin hnames
    obtain ⟨a, b⟩ := p
    have hab := hP (a, b) (List.mem_cons_self _ _)
    have hane : ¬ ((a, b) = ((i, j) : ℕ × ℕ)) := fun h => hnotin (h ▸ List.mem_cons_self _ _)
    have hil : i < states.length := lt_trans hij hjl
    have h1 : resLookup (applyResonancePair states a b) i (nameAt states j) =
        resLookup states i (nameAt states j) := by
      apply applyResonancePair_lookup_other
      · intro hai
        have hbj : b ≠ j := fun hbj => hane (by rw [hai, hbj])
        exact hnames b j hab.2 hjl hbj
      · intro hbi
        have haj : a ≠ j := by omega
        exact hnames a j (lt_trans hab.1 hab.2) hjl haj
    have h2 : resLookup (applyResonancePair states a b) j (nameAt states i) =
        resLookup states j (nameAt states i) := by
      apply applyResonancePair_lookup_other
      · intro haj
        have hbi : b ≠ i := by omega
        exact hnames b i hab.2 hil hbi
      · intro hbj
        have hai : a ≠ i := fun hai => hane (by rw [hai, hbj])
        exact hnames a i (lt_trans hab.1 hab.2) hil hai
    have hlen : (applyResonancePair states a b).length = states.length :=
      applyResonancePair_length states a b
    have hnn : ∀ k, nameAt (applyResonancePair states a b) k = nameAt states k :=
      fun k => nameAt_eq_of_skel k (applyResonancePair_skel states a b k)
    have hrest := ih (applyResonancePair states a b) (by omega)
      (fun q hq => by rw [hlen]; exact hP q (List.mem_cons_of_mem _ hq))
      (fun h => hnotin (List.mem_cons_of_mem _ h))
      (fun k l hk hl hkl => by
        rw [hnn k, hnn l]
        exact hnames k l (by omega) (by omega) hkl)
    rw [hnn j, hnn i] at hrest
    rw [List.foldl_cons]
    exact ⟨hrest.1.trans h1, hrest.2.trans h2⟩

/-- Main characterization: folding all write pairs over a state list
with pairwise distinct names stores, for any `(i, j)` among the pairs,
the pair resonance of the original states `i` and `j` under each
other's names. -/
theorem foldPairs_lookup_main (i j : ℕ) (hij : i < j) (P : List (ℕ × ℕ)) :
    ∀ states : List ConsciousnessState, j < states.length →
      (∀ p ∈ P, p.1 < p.2 ∧ p.2 < states.length) → P.Nodup → (i, j) ∈ P →
      (∀ k l, k < states.length → l < states.length → k ≠ l →
        nameAt states k ≠ nameAt states l) →
      resLookup (P.foldl (fun acc p => applyResonancePair acc p.1 p.2) states) i
          (nameAt states j) =
          some (pairResonance (stateAt states i) (stateAt states j)) ∧
        resLookup (P.foldl (fun acc p => applyResonancePair acc p.1 p.2) states) j
          (nameAt states i) =
          some (pairResonance (stateAt states i) (stateAt states j)) := by
  induction P with
  | nil => intro states _ _ _ hmem _; cases hmem
  | cons p P ih =>
    intro states hjl hP hnd hmem hnames
    obtain ⟨a, b⟩ := p
    have hil : i < states.length := lt_trans hij hjl
    have hsi : states[i]? = some (stateAt states i) := by
      unfold stateAt
      rw [List.getElem?_eq_getElem hil]
      rfl
    have hsj : states[j]? = some (stateAt states j) := by
      unfold stateAt
      rw [List.getElem?_eq_getElem hjl]
      rfl
    have hnamej : nameAt states j = (stateAt states j).field_name := by
      unfold nameAt
      rw [hsj]
      rfl
    have hnamei : nameAt states i = (stateAt states i).field_name := by
      unfold nameAt
      rw [hsi]
      rfl
    rw [List.foldl_cons]
    by_cases hp : (a, b) = ((i, j) : ℕ × ℕ)
    · have ha : a = i := congrArg Prod.fst hp
      have hb : b = j := congrArg Prod.snd hp
      subst ha hb
      have hni : (a, b) ∉ P := (List.nodup_cons.mp hnd).1
      have hlen : (applyResonancePair states a b).length = states.length :=
        applyResonancePair_length states a b
      have hnn : ∀ k, nameAt (applyResonancePair states a b) k = nameAt states k :=
        fun k => nameAt_eq_of_skel k (applyResonancePair_skel states a b k)
      have hpres := foldPairs_preserve_lookup a b hij P (applyResonancePair states a b)
        (by omega)
        (fun q hq => by rw [hlen]; exact hP q (List.mem_cons_of_mem _ hq))
        hni
        (fun k l hk hl hkl => by
          rw [hnn k, hnn l]
          exact hnames k l (by omega) (by omega) hkl)
      rw [hnn b, hnn a] at hpres
      refine ⟨hpres.1.trans ?_, hpres.2.trans ?_⟩
      · rw [hnamej]
        exact applyResonancePair_lookup_left states (by omega) hsi hsj
      · rw [hnamei]
        exact applyResonancePair_lookup_right states hsi hsj
    · have hmem' : (i, j) ∈ P := by
        rcases List.mem_cons.mp hmem with h | h
        · exact absurd h.symm hp
        · exact h
      have hnd' := (List.nodup_cons.mp hnd).2
      have hskel := applyResonancePair_skel states a b
      have hlen : (applyResonancePair states a b).length = states.length :=
        applyResonancePair_length states a b
      have hnn : ∀ k, nameAt (applyResonancePair states a b) k = nameAt states k :=
        fun k => nameAt_eq_of_skel k (hskel k)
      have hres := ih (applyResonancePair states a b) (by omega)
        (fun q hq => by rw [hlen]; exact hP q (List.mem_cons_of_mem _ hq))
        hnd' hmem'
        (fun k l hk hl hkl => by
          rw [hnn k, hnn l]
          exact hnames k l (by omega) (by omega) hkl)
      rw [hnn j, hnn i, pairResonance_stateAt_eq i j (hskel i) (hskel j)] at hres
      exact hres

/-- Membership in the double-loop pair list. -/
theorem mem_upperPairs {n a b : ℕ} : (a, b) ∈ upperPairs n ↔ a < b ∧ b < n := by
  unfold upperPairs
  simp only [List.mem_flatMap, List.mem_map, List.mem_filter, List.mem_range,
    decide_eq_true_eq]
  constructor
  · rintro ⟨i, hi, j, ⟨hj, hij⟩, heq⟩
    have h1 : i = a := congrArg Prod.fst heq
    have h2 : j = b := congrArg Prod.snd heq
    subst h1 h2
    exact ⟨hij, hj⟩
  · rintro ⟨hab, hbn⟩
    exact ⟨a, by omega, b, ⟨hbn, hab⟩, rfl⟩

/-- The double-loop pair list visits each pair once. -/
theorem upperPairs_nodup (n : ℕ) : (upperPairs n).Nodup := by
  unfold upperPairs
  rw [List.nodup_flatMap]
  constructor
  · intro i _
    exact ((List.nodup_range n).filter _).map (fun a b h => congrArg Prod.snd h)
  · have hpw : (List.range n).Pairwise (· ≠ ·) := List.nodup_range n
    refine hpw.imp ?_
    intro i i' hne x hx hx'
    simp only [List.mem_map, List.mem_filter] at hx hx'
    obtain ⟨j, _, hj⟩ := hx
    obtain ⟨j', _, hj'⟩ := hx'
    have e1 : i = x.1 := congrArg Prod.fst hj
    have e2 : i' = x.1 := congrArg Prod.fst hj'
    exact hne (e1.trans e2.symm)

/-- The Jaccard overlap always lies in `[0, 1]`. -/
theorem jaccardOverlap_bounds (g1 g2 : Finset ℕ) :
    0 ≤ jaccardOverlap g1 g2 ∧ jaccardOverlap g1 g2 ≤ 1 := by
  unfold jaccardOverlap
  by_cases h : g1 ≠ ∅ ∨ g2 ≠ ∅
  · rw [if_pos h]
    have hcard : (g1 ∩ g2).card ≤ (g1 ∪ g2).card :=
      Finset.card_le_card Finset.inter_subset_union
    have hne : (g1 ∪ g2).Nonempty := by
      rcases h with h | h
      · exact (Finset.nonempty_iff_ne_empty.mpr h).mono Finset.subset_union_left
      · exact (Finset.nonempty_iff_ne_empty.mpr h).mono Finset.subset_union_right
    have hpos : 0 < ((g1 ∪ g2).card : ℚ) := by
      exact_mod_cast Finset.card_pos.mpr hne
    constructor
    · positivity
    · rw [div_le_one hpos]
      exact_mod_cast hcard
  · rw [if_neg h]
    norm_num

/-- The stored pair resonance is symmetric in its two arguments. -/
theorem pairResonance_comm (s t : ConsciousnessState) :
    pairResonance s t = pairResonance t s := by
  simp only [pairResonance, jaccardOverlap]
  rw [Finset.inter_comm, Finset.union_comm, abs_sub_comm]
  simp only [or_comm]

/-- The pair resonance lies in `[0, 1]` whenever both coherences do. -/
theorem pairResonance_bounds (s t : ConsciousnessState)
    (hs : 0 ≤ s.coherence ∧ s.coherence ≤ 1)
    (ht : 0 ≤ t.coherence ∧ t.coherence ≤ 1) :
    0 ≤ pairResonance s t ∧ pairResonance s t ≤ 1 := by
  obtain ⟨hj0, hj1⟩ := jaccardOverlap_bounds s.dominant_gates.toFinset t.dominant_gates.toFinset
  have habs1 : |s.coherence - t.coherence| ≤ 1 := by
    rw [abs_le]
    constructor <;> linarith [hs.1, hs.2, ht.1, ht.2]
  have habs0 : 0 ≤ |s.coherence - t.coherence| := abs_nonneg _
  unfold pairResonance
  constructor <;> simp only <;> linarith

/-- C6: for any two distinct fields `i` and `j` in one query's collapsed
state list (distinct field names, coherences in `[0, 1]` as
`_compute_coherence` guarantees), `_compute_resonances` stores in state
`i`'s resonance map under state `j`'s name and in state `j`'s map under
state `i`'s name the *same* value `r`, with
`r = (jaccard overlap of dominant gates + (1 - |Δcoherence|)) / 2`
(Jaccard of two empty sets being 0), and `r` lies in `[0, 1]`. -/
theorem claim_C6_resonance_symmetry (states : List ConsciousnessState) (i j : ℕ)
    (hi : i < states.length) (hj : j < states.length) (hij : i ≠ j)
    (hnames : ∀ k l, k < states.length → l < states.length → k ≠ l →
      nameAt states k ≠ nameAt states l)
    (hci : 0 ≤ (stateAt states i).coherence ∧ (stateAt states i).coherence ≤ 1)
    (hcj : 0 ≤ (stateAt states j).coherence ∧ (stateAt states j).coherence ≤ 1) :
    ∃ r : ℚ,
      resLookup (compute_resonances states) i (nameAt states j) = some r ∧
        resLookup (compute_resonances states) j (nameAt states i) = some r ∧
        r = (jaccardOverlap (stateAt states i).dominant_gates.toFinset
              (stateAt states j).dominant_gates.toFinset +
            (1 - |(stateAt states i).coherence - (stateAt states j).coherence|)) / 2 ∧
        0 ≤ r ∧ r ≤ 1 := by
  have hPmem : ∀ p ∈ upperPairs states.length, p.1 < p.2 ∧ p.2 < states.length := by
    intro p hp
    exact mem_upperPairs.mp (by simpa using hp)
  unfold compute_resonances
  rcases Nat.lt_or_ge i j with hlt | hge
  · have hmain := foldPairs_lookup_main i j hlt (upperPairs states.length) states hj
      hPmem (upperPairs_nodup _) (mem_upperPairs.mpr ⟨hlt, hj⟩) hnames
    refine ⟨pairResonance (stateAt states i) (stateAt states j),
      hmain.1, hmain.2, rfl, ?_⟩
    exact pairResonance_bounds _ _ hci hcj
  · have hlt : j < i := by omega
    have hmain := foldPairs_lookup_main j i hlt (upperPairs states.length) states hi
      hPmem (upperPairs_nodup _) (mem_upperPairs.mpr ⟨hlt, hi⟩) hnames
    refine ⟨pairResonance (stateAt states i) (stateAt states j),
      ?_, ?_, rfl, ?_⟩
    · rw [pairResonance_comm]
      exact hmain.2
    · rw [pairResonance_comm]
      exact hmain.1
    · exact pairResonance_bounds _ _ hci hcj

/-- A concrete collapsed state for the C6 witness. -/
def resStateA : ConsciousnessState :=
  { field_name := "Mind", activation := 0, dominant_gates := [1, 2, 3]
    awareness_type := none, coherence := 1, resonance := [], narrative_seed := "" }

/-- A second concrete collapsed state for the C6 witness. -/
def resStateB : ConsciousnessState :=
  { field_name := "Heart", activation := 0, dominant_gates := [3, 4, 5]
    awareness_type := none, coherence := 1, resonance := [], narrative_seed := "" }

/-- Witness for C6 at the concrete two-state list `[resStateA, resStateB]`. -/
theorem claim_C6_resonance_symmetry_witness :
    ∃ r : ℚ,
      resLookup (compute_resonances [resStateA, resStateB]) 0
          (nameAt [resStateA, resStateB] 1) = some r ∧
        resLookup (compute_resonances [resStateA, resStateB]) 1
          (nameAt [resStateA, resStateB] 0) = some r ∧
        r = (jaccardOverlap (stateAt [resStateA, resStateB] 0).dominant_gates.toFinset
              (stateAt [resStateA, resStateB] 1).dominant_gates.toFinset +
            (1 - |(stateAt [resStateA, resStateB] 0).coherence -
                (stateAt [resStateA, resStateB] 1).coherence|)) / 2 ∧
        0 ≤ r ∧ r ≤ 1 :=
  claim_C6_resonance_symmetry [resStateA, resStateB] 0 1 (by decide) (by decide)
    (by decide)
    (fun k l hk hl hkl => by
      have hk2 : k < 2 := by simpa using hk
      have hl2 : l < 2 := by simpa using hl
      interval_cases k <;> interval_cases l <;> first | omega | decide)
    (by constructor <;> norm_num [stateAt, resStateA])
    (by constructor <;> norm_num [stateAt, resStateB])

/-- In eval mode the dropout draw is never consulted: the whole forward
pass is independent of it (`nn.Dropout` is the identity under
`model.eval()`). -/
theorem netForward_eval_noise (ops : FloatOps) (p : NetParams) (dn1 dn2 : List ℚ)
    (x : List (List ℚ)) (edges : List (ℕ × ℕ)) (sc : List ℚ)
    (masks : List (String × List Bool)) :
    netForward ops p false dn1 x edges sc masks =
      netForward ops p false dn2 x edges sc masks := by
  simp [netForward, sunFilm, dropoutQ]

/-- C1: with intention perturbation disabled, two successive calls to
`query` on the same engine (same question, same observer) return
identical per-gate activation scores and identical field states: the
encode → forward → collapse path is a pure function of the placements
and the frozen parameters; the dropout draw is unused because the
engine constructor put the network in eval mode, and the lazy
first-query initialization of the nine consciousness fields does not
change the result of the second query. -/
theorem claim_C1_query_determinism (ops : FloatOps) (params : NetParams)
    (placements : List Placement) (question : String)
    (observer_sun : Option Placement) (randn1 randn2 dropNoise1 dropNoise2 : List ℚ) :
    (engineQuery ops
        (engineQuery ops (mkEngine placements params) question observer_sun false
          randn1 dropNoise1).1
        question observer_sun false randn2 dropNoise2).2.codon_activations =
      (engineQuery ops (mkEngine placements params) question observer_sun false
        randn1 dropNoise1).2.codon_activations ∧
    (engineQuery ops
        (engineQuery ops (mkEngine placements params) question observer_sun false
          randn1 dropNoise1).1
        question observer_sun false randn2 dropNoise2).2.field_states =
      (engineQuery ops (mkEngine placements params) question observer_sun false
        randn1 dropNoise1).2.field_states := by
  have h := netForward_eval_noise ops params dropNoise2 dropNoise1
    (encode_placements placements) get_edge_index
    (selectSunContext observer_sun (find_body_sun placements)) get_awareness_masks
  dsimp only [engineQuery, mkEngine]
  simp only [Bool.false_eq_true, if_true, if_false, ite_true, ite_false]
  rw [h]
  exact ⟨rfl, rfl⟩

/-- C9: `compare_configurations` restores the engine's configuration:
after the sweep (which swaps each candidate configuration into the
mutable `config` field and queries), the state's `config` equals the
value it had before the call, for every question and configuration
list. -/
theorem claim_C9_config_restored (ops : FloatOps) (s : AdjState) (question : String)
    (configs : List Config) (paramsAt : ℕ → NetParams)
    (randnAt dropAt : ℕ → List ℚ) :
    (compare_configurations ops s question configs paramsAt randnAt dropAt).1.config =
      s.config := rfl

/-- With intention perturbation off, the `torch.randn` draw is never
consulted by `query`. -/
theorem engineQuery_no_intention_randn (ops : FloatOps) (st : EngineState)
    (question : String) (obs : Option Placement) (rn1 rn2 dn : List ℚ) :
    engineQuery ops st question obs false rn1 dn =
      engineQuery ops st question obs false rn2 dn := by
  dsimp only [engineQuery]
  simp only [Bool.false_eq_true, if_true, if_false, ite_true, ite_false]

/-- C10: `AdjustableConsciousness.query` consults `intention_strength`
only through the predicate `intention_strength > 0`: any two strictly
positive strengths produce identical state transitions and responses
(the perturbation is never scaled by the strength), and any strength
`≤ 0` disables the perturbation entirely — the result then coincides
with strength `0` under *any* perturbation draw. -/
theorem claim_C10_intention_strength_threshold (ops : FloatOps) (s : AdjState)
    (question : String) (ut up : Bool) (params : NetParams)
    (randn dropNoise randn2 : List ℚ) (a b : ℚ) :
    (0 < a → 0 < b →
        adjQuery ops s question ut up a params randn dropNoise =
          adjQuery ops s question ut up b params randn dropNoise) ∧
      (a ≤ 0 →
        adjQuery ops s question ut up a params randn dropNoise =
          adjQuery ops s question ut up 0 params randn2 dropNoise) := by
  constructor
  · intro ha hb
    have ha' : decide ((0 : ℚ) < a) = true := decide_eq_true ha
    have hb' : decide ((0 : ℚ) < b) = true := decide_eq_true hb
    dsimp only [adjQuery]
    rw [ha', hb']
  · intro ha
    have ha' : decide ((0 : ℚ) < a) = false := decide_eq_false (not_lt.mpr ha)
    have h0' : decide ((0 : ℚ) < 0) = false := decide_eq_false (lt_irrefl 0)
    dsimp only [adjQuery]
    rw [ha', h0',
      engineQuery_no_intention_randn ops
        (mkEngine
          (build_composite_placements s (ut && s.current_transits.isSome)
            (up && s.current_progressions.isSome))
          params)
        question none randn randn2 dropNoise]

/-- A minimal adjustable-consciousness state for the C10 witness. -/
def adjWitnessState : AdjState :=
  { natal_placements := []
    config := {}
    current_transits := none
    current_progressions := none
    query_history := [] }

/-- Witness for C10: strengths `1` and `2` agree exactly, and strength
`-1` coincides with strength `0` under a different perturbation draw. -/
theorem claim_C10_intention_strength_threshold_witness :
    (0 : ℚ) < 1 ∧ (0 : ℚ) < 2 ∧ (-1 : ℚ) ≤ 0 ∧
      adjQuery trivOps adjWitnessState "q" true true 1 zeroParams [] [] =
        adjQuery trivOps adjWitnessState "q" true true 2 zeroParams [] [] ∧
      adjQuery trivOps adjWitnessState "q" true true (-1) zeroParams [] [] =
        adjQuery trivOps adjWitnessState "q" true true 0 zeroParams [1] [] :=
  ⟨by norm_num, by norm_num, by norm_num,
    (claim_C10_intention_strength_threshold trivOps adjWitnessState "q" true true
        zeroParams [] [] [] 1 2).1 (by norm_num) (by norm_num),
    (claim_C10_intention_strength_threshold trivOps adjWitnessState "q" true true
        zeroParams [] [] [1] (-1) 0).2 (by norm_num)⟩

end RN
